import Mathlib

/-!
Verification of the Astroport-on-Osmosis concentrated-liquidity (PCL) pair
contract against its natural-language specification.

The orchestration code (provide_liquidity, withdraw_liquidity, internal_swap,
the sudo entry points) is embedded from
src/contracts/pair_concentrated/src/contract.rs and sudo.rs.  The numeric core
(calc_d, calc_y, get_xcp, compute_swap, PoolState::update_price,
PoolState::get_amp_gamma, get_share_in_assets, assert_max_spread and the
observation buffer) lives in the external astroport_pcl_common /
astroport / astroport_circular_buffer crates whose sources are not part of
this tree; those parts are modelled from the specification, and every such
definition is marked with a doc comment starting with "Modelled from the spec".

Fixed-point Decimal / Decimal256 values are modelled as exact rationals (ℚ);
integer token amounts (Uint128) as ℕ.  Saturating subtraction is modelled
explicitly where the contract uses it.
-/

namespace AstroPcl

/-- Decimal256 saturating subtraction (Decimal256::saturating_sub): the result
is clamped at zero since Decimal256 is unsigned. -/
def satSub (a b : ℚ) : ℚ := max (a - b) 0

/-- Modelled from the spec: the minimum-trade threshold
(astroport::pair::MIN_TRADE_SIZE, defined in the external astroport crate,
not under src/).  Its concrete value is irrelevant to the claims; only its
positivity and comparisons against it matter. -/
def minTradeSize : ℚ := 1 / 1000000000

/-- MINIMUM_LIQUIDITY_AMOUNT (1000 micro-units, from the astroport crate)
converted to a decimal at LP_TOKEN_PRECISION = 6, exactly as
contract.rs line 395 does: 1000 / 10^6. -/
def minimumLiquidityLock : ℚ := 1000 / 1000000

/-! ## Provide-liquidity input normalization (contract.rs lines 321-368)

The pair holds exactly two asset infos.  Asset infos are modelled as natural
numbers; an input asset is a pair (info, amount). -/

/-- An input asset: (asset info, integer amount). -/
structure InAsset where
  info : Nat
  amount : Nat
  deriving DecidableEq, Repr

/-- Errors of the asset-count normalization step of provide_liquidity. -/
inductive ProvideAssetsError
  | nothingToProvide
  | invalidAsset (info : Nat)
  | invalidNumberOfAssets (n : Nat)
  deriving DecidableEq, Repr

/-- Embeds the match on assets.len() in provide_liquidity
(contract.rs lines 321-344): zero assets fail with a generic
"Nothing to provide" error; a single asset that belongs to the pair is
padded with the omitted pool asset at an explicit zero amount (the code
pushes asset_infos[1 ^ given_ind] with Uint128::zero()); two assets pass
through; more than two fail with InvalidNumberOfAssets (reporting the
pair's asset count, 2). -/
def normalizeProvideAssets (pair0 pair1 : Nat) (assets : List InAsset) :
    Except ProvideAssetsError (List InAsset) :=
  match assets with
  | [] => .error .nothingToProvide
  | [a] =>
    if a.info = pair0 then .ok [a, ⟨pair1, 0⟩]
    else if a.info = pair1 then .ok [a, ⟨pair0, 0⟩]
    else .error (.invalidAsset a.info)
  | [a, b] => .ok [a, b]
  | _ => .error (.invalidNumberOfAssets 2)

/-- Embeds the initial-provide zero check of provide_liquidity
(contract.rs lines 365-368): when total LP supply is zero, a provide with
either deposit zero fails with InvalidZeroAmount.  Returns true when the
guard rejects the call. -/
def initialProvideZeroCheckFails (totalShare d0 d1 : ℚ) : Prop :=
  totalShare = 0 ∧ (d0 = 0 ∨ d1 = 0)

instance (totalShare d0 d1 : ℚ) :
    Decidable (initialProvideZeroCheckFails totalShare d0 d1) := by
  unfold initialProvideZeroCheckFails; infer_instance

/-! ## First provide into an empty pool (contract.rs lines 392-417) -/

/-- Errors of the empty-pool provide path. -/
inductive FirstProvideError
  | invalidZeroAmount
  | minimumLiquidityAmountError
  deriving DecidableEq, Repr

/-- Result of the empty-pool provide path: minted share and the two profit
accumulators written into the price state. -/
structure FirstProvideOk where
  mintAmount : ℚ
  xcpProfit : ℚ
  xcpProfitReal : ℚ
  deriving DecidableEq, Repr

/-- Embeds the empty-pool (total_share.is_zero()) branch of provide_liquidity
(contract.rs lines 365-368 and 392-417).  The value xcp stands for
get_xcp(calc_d(new_xp, amp_gamma), price_scale), computed by the external
astroport_pcl_common crate and therefore taken here as an input.  The code
computes mint_amount = xcp.saturating_sub(MINIMUM_LIQUIDITY_AMOUNT at LP
precision), fails with MinimumLiquidityAmountError if that is zero, and
otherwise sets xcp_profit = xcp_profit_real = 1 and mints mint_amount. -/
def firstProvide (d0 d1 xcp : ℚ) : Except FirstProvideError FirstProvideOk :=
  if d0 = 0 ∨ d1 = 0 then .error .invalidZeroAmount
  else
    let mint := satSub xcp minimumLiquidityLock
    if mint = 0 then .error .minimumLiquidityAmountError
    else .ok ⟨mint, 1, 1⟩

/-! ## Withdraw liquidity (contract.rs lines 511-599) -/

/-- Modelled from the spec: get_share_in_assets (astroport_pcl_common::utils,
not under src/): the pro-rata share of the current pool balances for a given
LP amount, refund_i = balance_i * amount / total_share (zero when the total
supply is zero).  Pool balances are decimal values; amount and total_share
are integer LP token amounts. -/
def get_share_in_assets (pool0 pool1 : ℚ) (amount totalShare : ℕ) :
    ℚ × ℚ :=
  if totalShare = 0 then (0, 0)
  else (pool0 * amount / totalShare, pool1 * amount / totalShare)

/-- Errors of withdraw_liquidity relevant to the claims. -/
inductive WithdrawError
  | imbalancedWithdrawDisabled
  deriving DecidableEq, Repr

/-- Result of withdraw_liquidity: refunded decimal amounts per asset and the
number of LP tokens burned. -/
structure WithdrawOk where
  refund0 : ℚ
  refund1 : ℚ
  burned : ℕ
  deriving DecidableEq, Repr

/-- Embeds withdraw_liquidity (contract.rs lines 511-599) at the granularity
the claim is about.  With an empty requested-assets list the code refunds
get_share_in_assets(pools, amount.saturating_sub(1), total_share) — note the
one-unit reduction of the LP amount — and burns the full amount; with any
non-empty requested-assets list it fails with the generic error
"Imbalanced withdraw is currently disabled" before touching any state
(a CosmWasm error aborts the whole message, so no state change persists). -/
def withdraw_liquidity (pool0 pool1 : ℚ) (amount totalShare : ℕ)
    (requested : List InAsset) : Except WithdrawError WithdrawOk :=
  if requested.isEmpty then
    let r := get_share_in_assets pool0 pool1 (amount - 1) totalShare
    .ok ⟨r.1, r.2, amount⟩
  else .error .imbalancedWithdrawDisabled

/-! ## Swap threshold gating (contract.rs lines 667-817, sudo.rs lines 74-243)

The frame effect of a swap on the price state and on the precommit
observation slot.  The numeric output of compute_swap (dy, the fee split)
is produced by the external astroport_pcl_common crate and enters here as
data; update_price is likewise external, so the embedding is parameterized
by an arbitrary updater function: the claims under scrutiny are about
WHETHER those updates happen, not about their values. -/

/-- The fields of compute_swap's result that drive the threshold gates. -/
structure SwapResultData where
  dy : ℚ
  makerFee : ℚ
  shareFee : ℚ
  deriving DecidableEq, Repr

/-- The mutable price state of the pool (PriceState in
astroport_pcl_common::state), as far as the frame claims need it. -/
structure PriceState where
  oraclePrice : ℚ
  lastPrice : ℚ
  priceScale : ℚ
  xcpProfit : ℚ
  xcpProfitReal : ℚ
  deriving DecidableEq, Repr

/-- A staged precommit observation (astroport::observation::
PrecommitObservation): base and quote trade sizes for the current block. -/
structure Precommit where
  baseAmount : ℕ
  quoteAmount : ℕ
  deriving DecidableEq, Repr

/-- Outcome of a swap as far as the frame claims are concerned: the price
state after the call and the precommit slot staged by the call (none when
the code skips PrecommitObservation::save). -/
structure SwapFrame where
  price : PriceState
  staged : Option Precommit
  deriving DecidableEq, Repr

/-- Embeds the tail of internal_swap (contract.rs lines 733-776).  The price
update (PoolState::update_price, external) runs iff
dy + maker_fee + share_fee ≥ MIN_TRADE_SIZE and the offer amount
≥ MIN_TRADE_SIZE (line 735); the precommit observation is staged iff the
offer amount ≥ MIN_TRADE_SIZE and dy ≥ MIN_TRADE_SIZE (line 769).  The
updater argument stands for the external update_price applied to the
current price state. -/
def internalSwapFrame (upd : PriceState → PriceState) (ps : PriceState)
    (offerAmount : ℚ) (r : SwapResultData) (pre : Precommit) : SwapFrame :=
  let ps1 :=
    if minTradeSize ≤ r.dy + r.makerFee + r.shareFee ∧ minTradeSize ≤ offerAmount
    then upd ps else ps
  let staged :=
    if minTradeSize ≤ offerAmount ∧ minTradeSize ≤ r.dy
    then some pre else none
  ⟨ps1, staged⟩

/-- Embeds the tail of sudo's swap_exact_amount_out (sudo.rs lines 167-202).
Unlike internal_swap, the price update runs unconditionally (sudo.rs lines
170-175 carry no MIN_TRADE_SIZE gate); only the precommit staging is gated
on offer amount ≥ MIN_TRADE_SIZE and dy ≥ MIN_TRADE_SIZE (line 195). -/
def swapExactAmountOutFrame (upd : PriceState → PriceState) (ps : PriceState)
    (offerAmount : ℚ) (r : SwapResultData) (pre : Precommit) : SwapFrame :=
  let ps1 := upd ps
  let staged :=
    if minTradeSize ≤ offerAmount ∧ minTradeSize ≤ r.dy
    then some pre else none
  ⟨ps1, staged⟩

/-! ## Sudo SwapExactAmountIn parameter resolution (sudo.rs lines 24-52) -/

/-- Astroport swap parameters staged by execute_swap (state.rs, SwapParams):
belief price, max spread, the original sender, and an optional receiver. -/
structure SwapParams where
  beliefPrice : Option ℚ
  maxSpread : Option ℚ
  sender : Nat
  toAddr : Option Nat
  deriving DecidableEq, Repr

/-- The effective swap arguments the sudo handler passes to internal_swap,
together with the SWAP_PARAMS storage slot left behind after the handler
consumed it. -/
structure ResolvedSwapArgs where
  beliefPrice : Option ℚ
  maxSpread : Option ℚ
  sender : Nat
  toAddr : Option Nat
  storedAfter : Option SwapParams
  deriving DecidableEq, Repr

/-- Embeds the SwapExactAmountIn arm of sudo (sudo.rs lines 24-52).  When no
SwapParams are staged (the swap was invoked directly through the DEX
module), belief_price defaults to Decimal::from_ratio(token_in.amount,
token_out_min_amount) and max_spread to zero, and the DEX-provided sender is
used; when SwapParams are staged they override all four values and the slot
is removed from storage before internal_swap runs, so a later call cannot
reuse them. -/
def resolveSwapExactIn (stored : Option SwapParams) (dexSender : Nat)
    (tokenInAmount tokenOutMinAmount : ℕ) : ResolvedSwapArgs :=
  match stored with
  | some p => ⟨p.beliefPrice, p.maxSpread, p.sender, p.toAddr, none⟩
  | none =>
    ⟨some ((tokenInAmount : ℚ) / (tokenOutMinAmount : ℚ)), some 0,
      dexSender, none, none⟩

/-- Modelled from the spec: the caller-supplied maximum-spread / belief-price
guard (assert_max_spread in astroport_pcl_common::utils, not under src/).
With a belief price p the expected return is offer_amount / p; the swap
aborts with MaxSpreadAssertion exactly when the return falls short of the
expected return and the relative shortfall exceeds max_spread.  Holds (true)
when the guard passes. -/
def assertMaxSpreadPasses (beliefPrice : Option ℚ) (maxSpread : ℚ)
    (offerAmount returnAmount : ℚ) : Prop :=
  match beliefPrice with
  | some p =>
    let expected := offerAmount / p
    ¬ (returnAmount < expected ∧ maxSpread < (expected - returnAmount) / expected)
  | none => True

instance (bp : Option ℚ) (ms offer ret : ℚ) :
    Decidable (assertMaxSpreadPasses bp ms offer ret) := by
  unfold assertMaxSpreadPasses
  cases bp <;> infer_instance

/-! ## Amplification / curvature scheduler -/

/-- The pair of curve-shape parameters (amp, gamma).  Rationals, since a
promotion may move either component down as well as up. -/
structure AmpGamma where
  amp : ℚ
  gamma : ℚ
  deriving DecidableEq, Repr

/-- The scheduler part of PoolState: initial and future AmpGamma values with
their timestamps (seconds). -/
structure ScheduleState where
  initial : AmpGamma
  future : AmpGamma
  initialTime : ℕ
  futureTime : ℕ
  deriving DecidableEq, Repr

/-- Clamp a rational into the interval from lo to hi. -/
def clampQ (x lo hi : ℚ) : ℚ := min (max x lo) hi

/-- Modelled from the spec: PoolState::get_amp_gamma (astroport_pcl_common,
not under src/): current(t) = initial + (future - initial) *
clamp((t - initial_time) / (future_time - initial_time), 0, 1),
componentwise over amp and gamma. -/
def get_amp_gamma (s : ScheduleState) (t : ℕ) : AmpGamma :=
  let r := clampQ (((t : ℚ) - (s.initialTime : ℚ)) /
    ((s.futureTime : ℚ) - (s.initialTime : ℚ))) 0 1
  ⟨s.initial.amp + (s.future.amp - s.initial.amp) * r,
   s.initial.gamma + (s.future.gamma - s.initial.gamma) * r⟩

/-! ## The invariant curve and swap accounting (spec sections 4.1, 4.2, 4.6)

The solver (calc_d / calc_y, astroport_pcl_common::math) is not under src/.
The spec describes D as the conserved quantity of a blend of constant-sum
and constant-product curves — in particular a quantity that grows with
either balance — and calc_y as the exact inverse of calc_d.  The curve is
therefore modelled as an abstract invariant function with exactly those
properties, over internal (price-scaled) balances. -/

/-- Modelled from the spec: an invariant curve.  D maps the two internal
balances to the invariant value; calc_y, given a target invariant value and
the offer-side balance, returns the ask-side balance solving the invariant
equation (spec 4.1: "the algorithm's inverse").  The blend of constant-sum
and constant-product is increasing in each balance, strictly in the ask
balance. -/
structure Curve where
  D : ℚ → ℚ → ℚ
  calc_y : ℚ → ℚ → ℚ
  monoOffer : ∀ x x' y, x ≤ x' → D x y ≤ D x' y
  strictMonoAsk : ∀ x, StrictMono (D x)
  calc_y_solves : ∀ d x, D x (calc_y d x) = d

/-- The parts of compute_swap's output needed for the invariant-growth
claim. -/
structure SwapOutput where
  dy : ℚ
  totalFee : ℚ
  makerFee : ℚ
  deriving DecidableEq, Repr

/-- Modelled from the spec: compute_swap (astroport_pcl_common::utils, not
under src/), per spec 4.6: using balances prior to crediting the offer
amount, calc_y finds the ask-side post-trade balance at the unchanged
invariant; dy_raw is the ask balance drop; the fee model takes
total_fee = rate * dy_raw out of the output, of which the maker share is
routed externally; the swapper receives dy = dy_raw - total_fee. -/
def compute_swap (c : Curve) (x0 x1 dx feeRate makerShare : ℚ) : SwapOutput :=
  let d := c.D x0 x1
  let newY := c.calc_y d (x0 + dx)
  let dyRaw := x1 - newY
  let totalFee := feeRate * dyRaw
  ⟨dyRaw - totalFee, totalFee, makerShare * totalFee⟩

/-- Post-swap pool balances (contract.rs lines 717-718 and spec 4.2: the
ask-side balance decreases by exactly dy_after_fee + maker_fee, i.e. the
pool retains the liquidity-provider share of the fee). -/
def balancesAfterSwap (x0 x1 dx : ℚ) (o : SwapOutput) : ℚ × ℚ :=
  (x0 + dx, x1 - o.dy - o.makerFee)

/-! ## Repeg engine and xcp_profit_real monotonicity (spec sections 3, 4.3)

PoolState::update_price is not under src/; it is modelled from spec 4.3:
the EMA oracle price and last price always move, while price_scale and the
profit accumulators move only when every repeg guard holds — guard 4 being
that the move must not decrease xcp_profit_real. -/

/-- A candidate repeg computed by the engine: the values price_scale,
xcp_profit and xcp_profit_real would take if the migration were applied,
plus the outcomes of the profit-growth guard (spec 4.3 step 2) and the
minimum-scale-delta guard (step 3), which depend on data this model does
not track. -/
structure RepegCandidate where
  newScale : ℚ
  newProfit : ℚ
  newProfitReal : ℚ
  profitGrowthOk : Bool
  scaleDeltaOk : Bool
  deriving DecidableEq, Repr

/-- Modelled from the spec: PoolState::update_price (astroport_pcl_common,
not under src/), per spec 4.3: oracle_price and last_price are refreshed on
every call; price_scale together with xcp_profit / xcp_profit_real migrate
only when the profit-growth guard, the scale-delta guard and the
loss-protection guard (the move must not decrease xcp_profit_real) all
hold. -/
def update_price (ps : PriceState) (newOracle newLast : ℚ)
    (cand : RepegCandidate) : PriceState :=
  let ps1 := { ps with oraclePrice := newOracle, lastPrice := newLast }
  if cand.profitGrowthOk ∧ cand.scaleDeltaOk ∧
      ps.xcpProfitReal ≤ cand.newProfitReal then
    { ps1 with priceScale := cand.newScale, xcpProfit := cand.newProfit,
               xcpProfitReal := cand.newProfitReal }
  else ps1

/-- Pool-level state for the profit-monotonicity claim: the LP total supply
and the price state. -/
structure PoolSt where
  totalShare : ℚ
  price : PriceState
  deriving DecidableEq, Repr

/-- A swap or provide operation, carrying the externally computed numeric
data the state transition consumes: the refreshed oracle and last prices,
the repeg candidate, whether the trade/imbalance cleared the
MIN_TRADE_SIZE gates, and (for provides) the minted share amount. -/
inductive PoolOp
  | swap (newOracle newLast : ℚ) (cand : RepegCandidate) (aboveMin : Bool)
  | provide (mint : ℚ) (newOracle newLast : ℚ) (cand : RepegCandidate)
      (aboveMin : Bool)
  deriving Repr

/-- Amounts carried by an operation are unsigned decimals in the contract:
a provide mints a non-negative share, and a genuinely first provide mints a
strictly positive one (contract.rs line 398 rejects a zero mint). -/
def PoolOp.Valid : PoolOp → Prop
  | .swap _ _ _ _ => True
  | .provide mint _ _ _ _ => 0 ≤ mint

/-- One swap or provide applied to the pool state, embedding the structure
of internal_swap (contract.rs lines 733-745) and provide_liquidity
(contract.rs lines 392-460): a swap on a pool with zero LP supply aborts
(before_swap_check fails on empty pools), and otherwise runs update_price
only when the trade cleared the MIN_TRADE_SIZE gates; a provide on an empty
pool initializes xcp_profit = xcp_profit_real = 1 and skips update_price
(the deposit never diverges from the balanced share of a previously empty
pool), while a provide on a funded pool runs update_price only when both
imbalance components cleared MIN_TRADE_SIZE. -/
def applyOp (st : PoolSt) : PoolOp → PoolSt
  | .swap newOracle newLast cand aboveMin =>
    if st.totalShare = 0 then st
    else if aboveMin then
      { st with price := update_price st.price newOracle newLast cand }
    else st
  | .provide mint newOracle newLast cand aboveMin =>
    if st.totalShare = 0 then
      { totalShare := st.totalShare + mint,
        price := { st.price with xcpProfit := 1, xcpProfitReal := 1 } }
    else if aboveMin then
      { totalShare := st.totalShare + mint,
        price := update_price st.price newOracle newLast cand }
    else { st with totalShare := st.totalShare + mint }

/-- A sequence of operations applied left to right. -/
def applyOps (st : PoolSt) : List PoolOp → PoolSt
  | [] => st
  | op :: ops => applyOps (applyOp st op) ops

/-- The reachability invariant backing the monotonicity claim: while the
pool has never been provisioned its profit accumulator is still at most its
post-initialization value 1 (instantiate sets it to 0, contract.rs line
133; the first provide sets it to 1). -/
def ProfitInv (st : PoolSt) : Prop :=
  0 ≤ st.totalShare ∧ (st.totalShare = 0 → st.price.xcpProfitReal ≤ 1)

/-! ## Observation buffer and the Observe query (spec section 4.5)

The ring buffer and its query (astroport::observation and
astroport_circular_buffer, not under src/) are modelled from the spec: the
retained ring entries form a chronologically ordered list (oldest first) of
per-block observations carrying a timestamp and a cumulative base price. -/

/-- Modelled from the spec: one retained ring entry,
Observation (timestamp, cumulative_base_price); the cumulative volume plays
no role in the price query and is omitted. -/
structure Obs where
  ts : ℕ
  cumPrice : ℚ
  deriving DecidableEq, Repr

/-- Error of the Observe query. -/
inductive ObserveError
  | observationOutOfRange
  deriving DecidableEq, Repr

/-- Linear interpolation of the cumulative price between two ring entries at
an intermediate timestamp. -/
def interpPrice (a b : Obs) (t : ℕ) : ℚ :=
  a.cumPrice + (b.cumPrice - a.cumPrice) *
    (((t : ℚ) - (a.ts : ℚ)) / ((b.ts : ℚ) - (a.ts : ℚ)))

/-- Scan the ring (oldest first) for the two adjacent entries bracketing the
target timestamp and interpolate between them; none when the target lies
past the newest retained entry. -/
def findBracket (target : ℕ) : List Obs → Option ℚ
  | a :: b :: rest =>
    if a.ts ≤ target ∧ target ≤ b.ts then some (interpPrice a b target)
    else findBracket target (b :: rest)
  | _ => none

/-- Modelled from the spec: the Observe query (spec 4.5).  target_ts =
now - seconds_ago; seconds_ago = 0 returns the latest derivable
instantaneous price (supplied here as lastPrice, derived from the newest
data); otherwise the ring is scanned for the two entries bracketing
target_ts and the cumulative price is linearly interpolated between them
(a target at or past the newest retained entry also resolves to the latest
derivable price); the query fails with ObservationOutOfRange exactly when
target_ts precedes the oldest retained entry. -/
def observe (ring : List Obs) (lastPrice : ℚ) (now secondsAgo : ℕ) :
    Except ObserveError ℚ :=
  if secondsAgo = 0 then .ok lastPrice
  else
    let target := now - secondsAgo
    match ring.head? with
    | none => .error .observationOutOfRange
    | some oldest =>
      if target < oldest.ts then .error .observationOutOfRange
      else
        match findBracket target ring with
        | some price => .ok price
        | none => .ok lastPrice

/-- A concrete instance of the abstract curve: the constant-sum limit of the
blend (the amplification-dominated extreme), used to witness the
invariant-growth theorem. -/
def sumCurve : Curve where
  D := fun x y => x + y
  calc_y := fun d x => d - x
  monoOffer := by
    intro x x' y h
    simpa using h
  strictMonoAsk := by
    intro x a b h
    simpa using h
  calc_y_solves := by
    intro d x
    ring

/-! ## The reference numeric scenario (spec section 8, integration test
check_observe_queries)

The solver is exercised on the literal scenario: a fresh uosmo/uusd pool
with amp = 40, gamma = 0.000145, price_scale = 1, mid_fee = 0.0026,
out_fee = 0.0045, fee_gamma = 0.00023 and a 50% maker fee share
(maker_fee_bps = 5000 in the test factory), provided with 100000 of each
asset and then swapped against.  All quantities are integers at the fixed
scale 10^12 (one unit = 10^-12 of a token); micro-unit outputs (10^-6, the
native precision of both test denoms) are produced by floor division
exactly as Decimal256::to_uint does. -/

/-- The fixed-point scale of the scenario computation: 10^12. -/
def scaleE : ℤ := 1000000000000

/-- Modelled from the spec: the invariant equation of calc_d / calc_y
(astroport_pcl_common::math, not under src/).  The spec gives no closed
form (its section 9 directs reimplementations to be validated against the
section 8 numeric scenarios instead of re-deriving the formula); the model
is the two-asset amplification/curvature blended curve
K·D·(x0+x1) + x0·x1 = K·D^2 + (D/2)^2 with
K = amp·gamma^2·K0/(gamma+1-K0)^2 and K0 = 4·x0·x1/D^2, at the scenario's
amp = 40 and gamma = 145/10^6.  This definition is the denominator-cleared,
sign-equivalent integer polynomial of that equation (positive iff the
invariant function is positive), with m the candidate D and a, b the
balances, all at scale 10^12 — the common scale cancels.  The model
reproduces the repository's own integration test outputs exactly
(99737929 and 99741246 micro-unit returns and final D = 200000.260415). -/
def pclPhi (m a b : ℤ) : ℤ :=
  let hint : ℤ := (145 + 1000000) * m * m - 4 * 1000000 * a * b
  16 * 40 * 145 * 145 * a * b * m * m * m * (a + b - m) +
    hint * hint * (4 * a * b - m * m)

/-- Exact bisection on an integer-valued function: n halving steps keeping
the sign change inside the bracket, returning the midpoint.  This replaces
the source's bounded Newton iteration (spec 4.1): both converge to the same
root of the invariant equation, here to within 10^-12 of a token after 60
steps, far inside the tolerances of the scenario's quoted values. -/
def bisect (f : ℤ → ℤ) : ℕ → ℤ → ℤ → ℤ → ℤ
  | 0, lo, hi, _ => (lo + hi) / 2
  | n + 1, lo, hi, flo =>
    let mid := (lo + hi) / 2
    let fm := f mid
    if (flo < 0 ↔ fm < 0) then bisect f n mid hi fm
    else bisect f n lo mid flo

/-- Modelled from the spec: calc_d at the scenario parameters — the root of
the invariant equation in D for balances a, b, isolated by 60 exact
bisection steps from the bracket between half and twice the balance sum. -/
def calc_d (a b : ℤ) : ℤ :=
  bisect (fun m => pclPhi m a b) 60 ((a + b) / 2) (2 * (a + b))
    (pclPhi ((a + b) / 2) a b)

/-- Modelled from the spec: calc_y at the scenario parameters — the solver's
inverse (spec 4.1): given the invariant value d and one fixed balance a,
the root of the invariant equation in the other balance, isolated by 60
exact bisection steps from the bracket between d/8 and 2·d. -/
def calc_y (d a : ℤ) : ℤ :=
  bisect (fun y => pclPhi d a y) 60 (d / 8) (2 * d)
    (pclPhi d a (d / 8))

/-- Modelled from the spec: the numerator of the fee-blend weight f =
fee_gamma/(fee_gamma + 1 - K0) with K0 = 4·x0·x1/(x0+x1)^2 (spec 4.2), at
fee_gamma = 23/10^5, cleared of denominators against feeFden: 23·(x0+x1)^2. -/
def feeFnum (x0 x1 : ℤ) : ℤ := 23 * (x0 + x1) * (x0 + x1)

/-- Modelled from the spec: the matching cleared denominator of the
fee-blend weight: (10^5+23)·(x0+x1)^2 - 4·10^5·x0·x1. -/
def feeFden (x0 x1 : ℤ) : ℤ :=
  100023 * (x0 + x1) * (x0 + x1) - 400000 * x0 * x1

/-- The swapper's output in micro-units: dy_raw·(1 - fee_rate) floored at
precision 10^-6, with fee_rate = f·mid_fee + (1-f)·out_fee =
(45·Fden - 19·Fnum)/(10^4·Fden) at mid_fee = 26/10^4, out_fee = 45/10^4, so
1 - fee_rate = (9955·Fden + 19·Fnum)/(10^4·Fden). -/
def returnUnits (dyRaw fnum fden : ℤ) : ℤ :=
  dyRaw * (9955 * fden + 19 * fnum) * 1000000 / (scaleE * 10000 * fden)

/-- The maker's half of the total fee (maker_fee_share = 1/2 in the test
configuration) in micro-units, floored. -/
def makerUnits (dyRaw fnum fden : ℤ) : ℤ :=
  dyRaw * (45 * fden - 19 * fnum) * 1000000 / (scaleE * 10000 * fden * 2)

/-- D of the freshly provided pool: balances 100000/100000. -/
def refD0 : ℤ := calc_d (100000 * scaleE) (100000 * scaleE)

/-- The ask-side balance solving the invariant after crediting the 100 uosmo
offer (compute_swap, spec 4.6: balances prior to the credit, offer side
increased by the offer amount, at the unchanged invariant). -/
def refY1 : ℤ := calc_y refD0 (100000 * scaleE + 100 * scaleE)

/-- The raw ask-balance drop of the first swap. -/
def refDyRaw1 : ℤ := 100000 * scaleE - refY1

/-- The first swap's output in micro-units (fee taken at the post-trade
balances, as compute_swap does). -/
def refReturn1 : ℤ :=
  returnUnits refDyRaw1 (feeFnum (100100 * scaleE) refY1)
    (feeFden (100100 * scaleE) refY1)

/-- The first swap's maker fee in micro-units. -/
def refMaker1 : ℤ :=
  makerUnits refDyRaw1 (feeFnum (100100 * scaleE) refY1)
    (feeFden (100100 * scaleE) refY1)

/-- The uusd pool balance after the first swap: the pool pays out the
return and the maker fee (contract.rs lines 717-718). -/
def refX1b : ℤ := (100000000000 - refReturn1 - refMaker1) * 1000000

/-- D computed from the pool balances after the first swap. -/
def refD1 : ℤ := calc_d (100100 * scaleE) refX1b

/-- The ask-side (uosmo) balance solving the invariant after crediting the
second swap's 100 uusd offer. -/
def refY2 : ℤ := calc_y refD1 (refX1b + 100 * scaleE)

/-- The raw uosmo-balance drop of the second swap. -/
def refDyRaw2 : ℤ := 100100 * scaleE - refY2

/-- The second swap's output in micro-units. -/
def refReturn2 : ℤ :=
  returnUnits refDyRaw2 (feeFnum refY2 (refX1b + 100 * scaleE))
    (feeFden refY2 (refX1b + 100 * scaleE))

/-- The second swap's maker fee in micro-units. -/
def refMaker2 : ℤ :=
  makerUnits refDyRaw2 (feeFnum refY2 (refX1b + 100 * scaleE))
    (feeFden refY2 (refX1b + 100 * scaleE))

/-- The uosmo pool balance after the second swap. -/
def refX0c : ℤ := (100100000000 - refReturn2 - refMaker2) * 1000000

/-- D computed from the pool balances after both swaps. -/
def refD2 : ℤ := calc_d refX0c (refX1b + 100 * scaleE)

/-! # Theorems for the claims -/

/-- The minimum-trade threshold is strictly positive. -/
theorem minTradeSize_pos : 0 < minTradeSize := by norm_num [minTradeSize]

/-- C10: provide_liquidity called with exactly one asset that belongs to the
pair is accepted by padding the omitted pool asset with an explicit
zero-amount deposit, and on a non-empty pool the padded zero deposit passes
the initial-provide zero-amount guard; a call with zero assets fails, and a
call with more than two assets fails with InvalidNumberOfAssets. -/
theorem C10_provide_asset_count (pair0 pair1 : Nat) (a : InAsset)
    (assets : List InAsset) (totalShare d0 d1 : ℚ)
    (hmem : a.info = pair0 ∨ a.info = pair1) (hshare : totalShare ≠ 0) :
    normalizeProvideAssets pair0 pair1 [a] =
      .ok [a, ⟨if a.info = pair0 then pair1 else pair0, 0⟩] ∧
    ¬ initialProvideZeroCheckFails totalShare d0 d1 ∧
    normalizeProvideAssets pair0 pair1 [] = .error .nothingToProvide ∧
    (2 < assets.length →
      normalizeProvideAssets pair0 pair1 assets =
        .error (.invalidNumberOfAssets 2)) := by
  refine ⟨?_, ?_, rfl, ?_⟩
  · rcases hmem with h | h
    · simp [normalizeProvideAssets, h]
    · by_cases h0 : a.info = pair0
      · simp [normalizeProvideAssets, h0]
      · by_cases hpp : pair1 = pair0
        · simp [normalizeProvideAssets, h0, h, hpp]
        · simp [normalizeProvideAssets, h0, h, hpp]
  · intro hfail
    exact hshare hfail.1
  · intro hlen
    match assets, hlen with
    | x :: y :: z :: rest, _ => rfl

/-- Witness for C10 at a concrete input. -/
theorem C10_provide_asset_count_witness :
    normalizeProvideAssets 7 8 [⟨8, 5⟩] = .ok [⟨8, 5⟩, ⟨7, 0⟩] ∧
    ¬ initialProvideZeroCheckFails 3 0 0 ∧
    normalizeProvideAssets 7 8 [] = .error .nothingToProvide ∧
    (2 < [(⟨7, 1⟩ : InAsset), ⟨8, 1⟩, ⟨7, 2⟩].length →
      normalizeProvideAssets 7 8 [⟨7, 1⟩, ⟨8, 1⟩, ⟨7, 2⟩] =
        .error (.invalidNumberOfAssets 2)) := by
  have h := C10_provide_asset_count 7 8 ⟨8, 5⟩ [⟨7, 1⟩, ⟨8, 1⟩, ⟨7, 2⟩] 3 0 0
    (by decide) (by norm_num)
  simpa using h

/-- C3: on a provide into an empty pool, a zero deposit on either side fails
with InvalidZeroAmount; otherwise, when the xcp value exceeds the fixed
minimum-liquidity lock the minted share is exactly xcp minus the lock and
both profit accumulators are initialized to 1, and when xcp is at most the
lock (the difference is non-positive, so the saturating subtraction yields
zero) the call fails with MinimumLiquidityAmountError. -/
theorem C3_first_provide_spec (d0 d1 xcp : ℚ) :
    ((d0 = 0 ∨ d1 = 0) →
      firstProvide d0 d1 xcp = .error .invalidZeroAmount) ∧
    (d0 ≠ 0 → d1 ≠ 0 →
      (xcp ≤ minimumLiquidityLock →
        firstProvide d0 d1 xcp = .error .minimumLiquidityAmountError) ∧
      (minimumLiquidityLock < xcp →
        firstProvide d0 d1 xcp = .ok ⟨xcp - minimumLiquidityLock, 1, 1⟩)) := by
  constructor
  · intro h
    simp [firstProvide, h]
  · intro h0 h1
    have hne : ¬ (d0 = 0 ∨ d1 = 0) := by
      rintro (h | h) <;> [exact h0 h; exact h1 h]
    constructor
    · intro hle
      have hz : satSub xcp minimumLiquidityLock = 0 := by
        unfold satSub
        rw [max_eq_right]
        linarith
      simp [firstProvide, hne, hz]
    · intro hlt
      have hz : satSub xcp minimumLiquidityLock = xcp - minimumLiquidityLock := by
        unfold satSub
        rw [max_eq_left]
        linarith
      have hnz : satSub xcp minimumLiquidityLock ≠ 0 := by
        rw [hz]
        intro hc
        have : xcp = minimumLiquidityLock := by linarith [sub_eq_zero.mp hc]
        exact absurd this (by linarith)
      have hnz' : xcp - minimumLiquidityLock ≠ 0 := hz ▸ hnz
      simp only [firstProvide, if_neg hne, hz, if_neg hnz']

/-- Witness for C3 at concrete inputs: a zero-sided first provide fails, and
a first provide with xcp = 3 mints 3 minus the lock with both profit
accumulators at 1. -/
theorem C3_first_provide_spec_witness :
    firstProvide 0 5 3 = .error .invalidZeroAmount ∧
    firstProvide 5 5 3 = .ok ⟨3 - minimumLiquidityLock, 1, 1⟩ := by
  constructor
  · exact (C3_first_provide_spec 0 5 3).1 (Or.inl rfl)
  · exact ((C3_first_provide_spec 5 5 3).2 (by norm_num) (by norm_num)).2
      (by norm_num [minimumLiquidityLock])

/-- C6 counterexample: the claim says the pro-rata refund is
balance_i * lp_amount / total_share, but withdraw_liquidity passes
lp_amount.saturating_sub(1) to get_share_in_assets (contract.rs line 536).
With balances (100, 100), lp_amount 50 and total_share 100 the code refunds
49 per asset, not the claimed 50. -/
theorem C6_counterexample :
    withdraw_liquidity 100 100 50 100 [] ≠
      .ok ⟨100 * 50 / 100, 100 * 50 / 100, 50⟩ := by
  simp only [withdraw_liquidity, get_share_in_assets]
  norm_num

/-- C6 (amended): withdraw with an empty requested-assets list refunds each
pooled asset pro-rata with one LP unit deducted first, refund_i =
current_balance_i * (lp_amount - 1) / total_share, and burns the full
lp_amount; withdraw with any non-empty requested-assets list fails with the
imbalanced-withdraw-unsupported error (the error aborts the whole message,
so no state changes). -/
theorem C6_withdraw_spec (pool0 pool1 : ℚ) (amount totalShare : ℕ)
    (requested : List InAsset) (hts : totalShare ≠ 0)
    (hreq : requested ≠ []) :
    withdraw_liquidity pool0 pool1 amount totalShare [] =
      .ok ⟨pool0 * ((amount - 1 : ℕ) : ℚ) / (totalShare : ℚ),
           pool1 * ((amount - 1 : ℕ) : ℚ) / (totalShare : ℚ), amount⟩ ∧
    withdraw_liquidity pool0 pool1 amount totalShare requested =
      .error .imbalancedWithdrawDisabled := by
  constructor
  · have hts' : ¬ (totalShare = 0) := hts
    simp [withdraw_liquidity, get_share_in_assets, hts']
  · have : ¬ requested.isEmpty := by
      cases requested with
      | nil => exact absurd rfl hreq
      | cons x xs => simp
    simp [withdraw_liquidity, this]

/-- Witness for C6 at a concrete input: the same scenario as the
counterexample, refunding 49 per asset and burning 50, while a requested
asset list fails. -/
theorem C6_withdraw_spec_witness :
    withdraw_liquidity 100 100 50 100 [] = .ok ⟨49, 49, 50⟩ ∧
    withdraw_liquidity 100 100 50 100 [⟨0, 1⟩] =
      .error .imbalancedWithdrawDisabled := by
  have h := C6_withdraw_spec 100 100 50 100 [⟨0, 1⟩] (by norm_num) (by simp)
  refine ⟨?_, h.2⟩
  have h1 := h.1
  norm_num at h1 ⊢
  exact h1

/-- C4 counterexample: the claim says every swap below the minimum-trade
threshold leaves the price state untouched, but the SwapExactAmountOut sudo
path (sudo.rs lines 170-175) calls update_price unconditionally.  Here a
swap with offer amount 0 and dy 0 — far below MIN_TRADE_SIZE — still
changes the price state (any updater that moves last_price witnesses
this). -/
theorem C4_counterexample :
    (0 : ℚ) < minTradeSize ∧
    (swapExactAmountOutFrame (fun ps => { ps with lastPrice := 1 })
        ⟨1, 0, 1, 1, 1⟩ 0 ⟨0, 0, 0⟩ ⟨0, 0⟩).price ≠
      (⟨1, 0, 1, 1, 1⟩ : PriceState) := by
  constructor
  · exact minTradeSize_pos
  · intro h
    have : (0 : ℚ) = 1 := congrArg PriceState.lastPrice h.symm
    norm_num at this

/-- C4 (amended): in the SwapExactAmountIn path (internal_swap), the
repeg/oracle update runs exactly when the offer amount is at least
MIN_TRADE_SIZE and dy + maker_fee + share_fee is at least MIN_TRADE_SIZE,
and a precommit observation is staged exactly when the offer amount and dy
are both at least MIN_TRADE_SIZE; a swap below these gates still executes
but leaves the price state untouched and stages nothing.  In the
SwapExactAmountOut sudo path the repeg/oracle update runs for every swap
regardless of trade size, and only the precommit staging is gated as in
internal_swap. -/
theorem C4_swap_min_trade_gating (upd : PriceState → PriceState)
    (ps : PriceState) (offer : ℚ) (r : SwapResultData) (pre : Precommit) :
    (offer < minTradeSize →
      (internalSwapFrame upd ps offer r pre).price = ps ∧
      (internalSwapFrame upd ps offer r pre).staged = none) ∧
    (minTradeSize ≤ offer → minTradeSize ≤ r.dy + r.makerFee + r.shareFee →
      (internalSwapFrame upd ps offer r pre).price = upd ps) ∧
    (r.dy + r.makerFee + r.shareFee < minTradeSize →
      (internalSwapFrame upd ps offer r pre).price = ps) ∧
    (minTradeSize ≤ offer → minTradeSize ≤ r.dy →
      (internalSwapFrame upd ps offer r pre).staged = some pre) ∧
    (r.dy < minTradeSize →
      (internalSwapFrame upd ps offer r pre).staged = none) ∧
    (swapExactAmountOutFrame upd ps offer r pre).price = upd ps ∧
    (swapExactAmountOutFrame upd ps offer r pre).staged =
      (internalSwapFrame upd ps offer r pre).staged := by
  refine ⟨?_, ?_, ?_, ?_, ?_, rfl, rfl⟩
  · intro hlt
    have h1 : ¬ (minTradeSize ≤ r.dy + r.makerFee + r.shareFee ∧
        minTradeSize ≤ offer) := by
      rintro ⟨-, h⟩
      linarith
    have h2 : ¬ (minTradeSize ≤ offer ∧ minTradeSize ≤ r.dy) := by
      rintro ⟨h, -⟩
      linarith
    exact ⟨by simp [internalSwapFrame, h1], by simp [internalSwapFrame, h2]⟩
  · intro h1 h2
    simp [internalSwapFrame, h1, h2]
  · intro hlt
    have h1 : ¬ (minTradeSize ≤ r.dy + r.makerFee + r.shareFee ∧
        minTradeSize ≤ offer) := by
      rintro ⟨h, -⟩
      linarith
    simp [internalSwapFrame, h1]
  · intro h1 h2
    simp [internalSwapFrame, h1, h2]
  · intro hlt
    have h2 : ¬ (minTradeSize ≤ offer ∧ minTradeSize ≤ r.dy) := by
      rintro ⟨-, h⟩
      linarith
    simp [internalSwapFrame, h2]

/-- Witness for C4's amended gating at concrete inputs: a tiny swap through
internal_swap leaves the price state unchanged and stages nothing, while a
large one applies the updater and stages its precommit data. -/
theorem C4_swap_min_trade_gating_witness :
    ((internalSwapFrame (fun ps => { ps with lastPrice := 1 })
        ⟨1, 0, 1, 1, 1⟩ 0 ⟨0, 0, 0⟩ ⟨0, 0⟩).price = ⟨1, 0, 1, 1, 1⟩ ∧
      (internalSwapFrame (fun ps => { ps with lastPrice := 1 })
        ⟨1, 0, 1, 1, 1⟩ 0 ⟨0, 0, 0⟩ ⟨0, 0⟩).staged = none) ∧
    (internalSwapFrame (fun ps => { ps with lastPrice := 1 })
        ⟨1, 0, 1, 1, 1⟩ 5 ⟨2, 1, 0⟩ ⟨7, 9⟩).price = ⟨1, 1, 1, 1, 1⟩ ∧
    (internalSwapFrame (fun ps => { ps with lastPrice := 1 })
        ⟨1, 0, 1, 1, 1⟩ 5 ⟨2, 1, 0⟩ ⟨7, 9⟩).staged = some ⟨7, 9⟩ := by
  refine ⟨?_, ?_, ?_⟩
  · exact (C4_swap_min_trade_gating (fun ps => { ps with lastPrice := 1 })
      ⟨1, 0, 1, 1, 1⟩ 0 ⟨0, 0, 0⟩ ⟨0, 0⟩).1 minTradeSize_pos
  · exact (C4_swap_min_trade_gating (fun ps => { ps with lastPrice := 1 })
      ⟨1, 0, 1, 1, 1⟩ 5 ⟨2, 1, 0⟩ ⟨7, 9⟩).2.1
      (by norm_num [minTradeSize]) (by norm_num [minTradeSize])
  · exact (C4_swap_min_trade_gating (fun ps => { ps with lastPrice := 1 })
      ⟨1, 0, 1, 1, 1⟩ 5 ⟨2, 1, 0⟩ ⟨7, 9⟩).2.2.2.1
      (by norm_num [minTradeSize]) (by norm_num [minTradeSize])

/-- C9: a SwapExactAmountIn sudo call without staged Astroport swap
parameters uses belief_price = token_in.amount / token_out_min_amount with
max_spread = 0, under which the max-spread guard rejects the swap exactly
when the computed output is below token_out_min_amount; and whether or not
parameters were staged, the SWAP_PARAMS slot is empty afterwards, so a
staged entry is consumed by exactly one swap and overrides all four
parameters. -/
theorem C9_sudo_swap_exact_in (p : SwapParams) (stored : Option SwapParams)
    (dexSender : Nat) (tokenIn minOut : ℕ) (ret : ℚ)
    (hin : 0 < tokenIn) (hmin : 0 < minOut) :
    resolveSwapExactIn (some p) dexSender tokenIn minOut =
      ⟨p.beliefPrice, p.maxSpread, p.sender, p.toAddr, none⟩ ∧
    resolveSwapExactIn none dexSender tokenIn minOut =
      ⟨some ((tokenIn : ℚ) / (minOut : ℚ)), some 0, dexSender, none, none⟩ ∧
    (resolveSwapExactIn stored dexSender tokenIn minOut).storedAfter = none ∧
    (assertMaxSpreadPasses (some ((tokenIn : ℚ) / (minOut : ℚ))) 0
        (tokenIn : ℚ) ret ↔ (minOut : ℚ) ≤ ret) := by
  have hinQ : (0 : ℚ) < (tokenIn : ℚ) := by exact_mod_cast hin
  have hminQ : (0 : ℚ) < (minOut : ℚ) := by exact_mod_cast hmin
  refine ⟨rfl, rfl, ?_, ?_⟩
  · cases stored <;> rfl
  · have hexp : (tokenIn : ℚ) / ((tokenIn : ℚ) / (minOut : ℚ)) = (minOut : ℚ) := by
      field_simp
    simp only [assertMaxSpreadPasses, hexp]
    constructor
    · intro h
      by_contra hlt
      push_neg at hlt
      apply h
      refine ⟨hlt, ?_⟩
      exact div_pos (by linarith) hminQ
    · intro hle
      rintro ⟨hlt, -⟩
      linarith

/-- Witness for C9 at concrete inputs: with token_in = 100 and
token_out_min_amount = 40, an output of 39 fails the guard while the staged
slot is empty after resolution. -/
theorem C9_sudo_swap_exact_in_witness :
    resolveSwapExactIn (some ⟨some 2, some 0, 11, none⟩) 3 100 40 =
      ⟨some 2, some 0, 11, none, none⟩ ∧
    resolveSwapExactIn none 3 100 40 =
      ⟨some ((100 : ℚ) / (40 : ℚ)), some 0, 3, none, none⟩ ∧
    (resolveSwapExactIn none 3 100 40).storedAfter = none ∧
    (assertMaxSpreadPasses (some ((100 : ℚ) / (40 : ℚ))) 0 (100 : ℚ) 39 ↔
      (40 : ℚ) ≤ 39) := by
  have h := C9_sudo_swap_exact_in ⟨some 2, some 0, 11, none⟩ none 3 100 40 39
    (by norm_num) (by norm_num)
  refine ⟨h.1, ?_, h.2.2.1, ?_⟩
  · have := h.2.1
    norm_num at this ⊢
    exact this
  · have := h.2.2.2
    norm_num at this ⊢
    exact this

/-- C8: the current amplification/curvature pair at time t equals
initial + (future - initial) * clamp((t - initial_time) /
(future_time - initial_time), 0, 1), componentwise; before initial_time the
pair is the initial one, from future_time on it is the future one, and
promoting amp from 40 at time t0 to 44 at t0 + 100000 yields amp = 42 when
queried at t0 + 50000. -/
theorem C8_amp_gamma_interpolation (s : ScheduleState) (t t0 : ℕ)
    (g0 g1 : ℚ) (h : s.initialTime < s.futureTime) :
    (get_amp_gamma s t =
      ⟨s.initial.amp + (s.future.amp - s.initial.amp) *
          clampQ (((t : ℚ) - (s.initialTime : ℚ)) /
            ((s.futureTime : ℚ) - (s.initialTime : ℚ))) 0 1,
        s.initial.gamma + (s.future.gamma - s.initial.gamma) *
          clampQ (((t : ℚ) - (s.initialTime : ℚ)) /
            ((s.futureTime : ℚ) - (s.initialTime : ℚ))) 0 1⟩) ∧
    (t ≤ s.initialTime → get_amp_gamma s t = s.initial) ∧
    (s.futureTime ≤ t → get_amp_gamma s t = s.future) ∧
    (get_amp_gamma ⟨⟨40, g0⟩, ⟨44, g1⟩, t0, t0 + 100000⟩ (t0 + 50000)).amp
      = 42 := by
  have hden : (0 : ℚ) < (s.futureTime : ℚ) - (s.initialTime : ℚ) := by
    have : (s.initialTime : ℚ) < (s.futureTime : ℚ) := by exact_mod_cast h
    linarith
  refine ⟨rfl, ?_, ?_, ?_⟩
  · intro ht
    have htQ : (t : ℚ) - (s.initialTime : ℚ) ≤ 0 := by
      have : (t : ℚ) ≤ (s.initialTime : ℚ) := by exact_mod_cast ht
      linarith
    have hr : clampQ (((t : ℚ) - (s.initialTime : ℚ)) /
        ((s.futureTime : ℚ) - (s.initialTime : ℚ))) 0 1 = 0 := by
      unfold clampQ
      have hratio : ((t : ℚ) - (s.initialTime : ℚ)) /
          ((s.futureTime : ℚ) - (s.initialTime : ℚ)) ≤ 0 :=
        div_nonpos_of_nonpos_of_nonneg htQ (le_of_lt hden)
      rw [max_eq_right hratio, min_eq_left (by norm_num : (0:ℚ) ≤ 1)]
    unfold get_amp_gamma
    rw [hr]
    simp
  · intro ht
    have htQ : (s.futureTime : ℚ) - (s.initialTime : ℚ) ≤
        (t : ℚ) - (s.initialTime : ℚ) := by
      have : (s.futureTime : ℚ) ≤ (t : ℚ) := by exact_mod_cast ht
      linarith
    have hr : clampQ (((t : ℚ) - (s.initialTime : ℚ)) /
        ((s.futureTime : ℚ) - (s.initialTime : ℚ))) 0 1 = 1 := by
      unfold clampQ
      have hratio : (1 : ℚ) ≤ ((t : ℚ) - (s.initialTime : ℚ)) /
          ((s.futureTime : ℚ) - (s.initialTime : ℚ)) :=
        (one_le_div hden).mpr htQ
      rw [max_eq_left (by linarith), min_eq_right hratio]
    unfold get_amp_gamma
    rw [hr]
    simp
  · unfold get_amp_gamma clampQ
    have h50 : ((t0 + 50000 : ℕ) : ℚ) - (t0 : ℚ) = 50000 := by
      push_cast
      ring
    have h100 : ((t0 + 100000 : ℕ) : ℚ) - (t0 : ℚ) = 100000 := by
      push_cast
      ring
    simp only [h50, h100]
    norm_num

/-- Witness for C8 at a concrete schedule: amp 40 at time 10 promoted to 44
at time 100010 reads 40 at time 5, 44 at time 200000, and 42 halfway. -/
theorem C8_amp_gamma_interpolation_witness :
    (get_amp_gamma ⟨⟨40, 1⟩, ⟨44, 2⟩, 10, 100010⟩ 5 = ⟨40, 1⟩) ∧
    (get_amp_gamma ⟨⟨40, 1⟩, ⟨44, 2⟩, 10, 100010⟩ 200000 = ⟨44, 2⟩) ∧
    (get_amp_gamma ⟨⟨40, 1⟩, ⟨44, 2⟩, 10, 10 + 100000⟩ (10 + 50000)).amp
      = 42 := by
  have h := C8_amp_gamma_interpolation ⟨⟨40, 1⟩, ⟨44, 2⟩, 10, 100010⟩ 5 10 1 2
    (by norm_num)
  have h2 := C8_amp_gamma_interpolation ⟨⟨40, 1⟩, ⟨44, 2⟩, 10, 100010⟩ 200000
    10 1 2 (by norm_num)
  exact ⟨h.2.1 (by norm_num), h2.2.2.1 (by norm_num), h.2.2.2⟩

/-- C1: for every valid swap (non-negative offer amount, fee rate and maker
share within their documented bounds), the curve invariant D computed from
the pool balances after the swap — offer side credited with the offer
amount, ask side debited by exactly dy plus the maker fee, so the pool
retains the liquidity-provider share of the fee — is at least the D
computed from the balances before the swap. -/
theorem C1_swap_D_nondecreasing (c : Curve) (x0 x1 dx feeRate makerShare : ℚ)
    (hdx : 0 ≤ dx) (hf0 : 0 ≤ feeRate) (hf1 : feeRate ≤ 1)
    (hm0 : 0 ≤ makerShare) (hm1 : makerShare ≤ 1) :
    c.D x0 x1 ≤
      c.D (balancesAfterSwap x0 x1 dx
            (compute_swap c x0 x1 dx feeRate makerShare)).1
          (balancesAfterSwap x0 x1 dx
            (compute_swap c x0 x1 dx feeRate makerShare)).2 := by
  set d := c.D x0 x1 with hd
  set newY := c.calc_y d (x0 + dx) with hy
  have hsolve : c.D (x0 + dx) newY = d := c.calc_y_solves d (x0 + dx)
  have hmono' : c.D x0 x1 ≤ c.D (x0 + dx) x1 :=
    c.monoOffer x0 (x0 + dx) x1 (by linarith)
  have hyle : newY ≤ x1 := by
    by_contra hgt
    push_neg at hgt
    have := (c.strictMonoAsk (x0 + dx)) hgt
    rw [hsolve] at this
    exact absurd (lt_of_le_of_lt hmono' this) (lt_irrefl d)
  have hdyRaw : 0 ≤ x1 - newY := by linarith
  have hlpfee : 0 ≤ (1 - makerShare) * (feeRate * (x1 - newY)) := by
    apply mul_nonneg (by linarith) (mul_nonneg hf0 hdyRaw)
  have hafter : (balancesAfterSwap x0 x1 dx
      (compute_swap c x0 x1 dx feeRate makerShare)).2 =
      newY + (1 - makerShare) * (feeRate * (x1 - newY)) := by
    simp only [balancesAfterSwap, compute_swap, ← hd, ← hy]
    ring
  have hfinal : c.D (x0 + dx) newY ≤
      c.D (x0 + dx) (newY + (1 - makerShare) * (feeRate * (x1 - newY))) :=
    (c.strictMonoAsk (x0 + dx)).monotone (by linarith)
  calc c.D x0 x1 = c.D (x0 + dx) newY := hsolve.symm
    _ ≤ _ := by
        rw [hafter]
        exact hfinal

/-- Witness for C1 at a concrete input: a swap of 10 against balances
(100, 100) at fee rate 1/100 and maker share 1/2 on the constant-sum
instance does not decrease D. -/
theorem C1_swap_D_nondecreasing_witness :
    sumCurve.D 100 100 ≤
      sumCurve.D (balancesAfterSwap 100 100 10
            (compute_swap sumCurve 100 100 10 (1/100) (1/2))).1
          (balancesAfterSwap 100 100 10
            (compute_swap sumCurve 100 100 10 (1/100) (1/2))).2 :=
  C1_swap_D_nondecreasing sumCurve 100 100 10 (1/100) (1/2)
    (by norm_num) (by norm_num) (by norm_num) (by norm_num) (by norm_num)

/-- The loss-protection guard of the repeg engine: update_price never
decreases the stored xcp_profit_real. -/
theorem update_price_profitReal_mono (ps : PriceState) (newOracle newLast : ℚ)
    (cand : RepegCandidate) :
    ps.xcpProfitReal ≤ (update_price ps newOracle newLast cand).xcpProfitReal := by
  unfold update_price
  by_cases h : cand.profitGrowthOk ∧ cand.scaleDeltaOk ∧
      ps.xcpProfitReal ≤ cand.newProfitReal
  · rw [if_pos h]
    exact h.2.2
  · rw [if_neg h]

/-- One valid operation neither decreases xcp_profit_real nor breaks the
reachability invariant. -/
theorem applyOp_profitReal_step (st : PoolSt) (op : PoolOp)
    (hinv : ProfitInv st) (hop : op.Valid) :
    st.price.xcpProfitReal ≤ (applyOp st op).price.xcpProfitReal ∧
    ProfitInv (applyOp st op) := by
  obtain ⟨hnn, hle1⟩ := hinv
  cases op with
  | swap newOracle newLast cand aboveMin =>
    by_cases hz : st.totalShare = 0
    · simp only [applyOp, if_pos hz]
      exact ⟨le_refl _, hnn, hle1⟩
    · cases aboveMin with
      | false =>
        simp only [applyOp, if_neg hz, Bool.false_eq_true, if_false]
        exact ⟨le_refl _, hnn, hle1⟩
      | true =>
        simp only [applyOp, if_neg hz, if_true]
        refine ⟨update_price_profitReal_mono _ _ _ _, hnn, fun h => absurd h hz⟩
  | provide mint newOracle newLast cand aboveMin =>
    have hmint : 0 ≤ mint := hop
    by_cases hz : st.totalShare = 0
    · simp only [applyOp, if_pos hz]
      refine ⟨hle1 hz, by simpa [hz] using hmint, fun _ => le_refl 1⟩
    · have hpos : 0 < st.totalShare := lt_of_le_of_ne hnn (Ne.symm hz)
      have hsum : 0 < st.totalShare + mint := by linarith
      cases aboveMin with
      | false =>
        simp only [applyOp, if_neg hz, Bool.false_eq_true, if_false]
        exact ⟨le_refl _, le_of_lt hsum, fun h => absurd h (ne_of_gt hsum)⟩
      | true =>
        simp only [applyOp, if_neg hz, if_true]
        exact ⟨update_price_profitReal_mono _ _ _ _, le_of_lt hsum,
          fun h => absurd h (ne_of_gt hsum)⟩

/-- C5: across any sequence of valid swap and provide operations (no
withdrawal among them), starting from any state satisfying the
reachability invariant — the LP supply is non-negative, and a
never-provisioned pool still has xcp_profit_real at most 1 (the freshly
instantiated pool starts at 0) — the stored xcp_profit_real never
decreases. -/
theorem C5_xcp_profit_real_monotone (st : PoolSt) (ops : List PoolOp)
    (hinv : ProfitInv st) (hops : ∀ op ∈ ops, op.Valid) :
    st.price.xcpProfitReal ≤ (applyOps st ops).price.xcpProfitReal := by
  induction ops generalizing st with
  | nil => exact le_refl _
  | cons op rest ih =>
    have hop : op.Valid := hops op (List.mem_cons_self op rest)
    have hstep := applyOp_profitReal_step st op hinv hop
    have hrest := ih (applyOp st op) hstep.2
      (fun o ho => hops o (List.mem_cons_of_mem op ho))
    exact le_trans hstep.1 hrest

/-- Witness for C5 at a concrete run: from the freshly instantiated state
(zero LP supply, xcp_profit_real = 0), a first provide followed by a swap
whose repeg candidate passes all guards leaves xcp_profit_real at least
where it started. -/
theorem C5_xcp_profit_real_monotone_witness :
    (⟨0, ⟨1, 1, 1, 0, 0⟩⟩ : PoolSt).price.xcpProfitReal ≤
      (applyOps ⟨0, ⟨1, 1, 1, 0, 0⟩⟩
        [.provide 5 1 1 ⟨1, 1, 1, true, true⟩ false,
         .swap 2 2 ⟨2, 2, 2, true, true⟩ true]).price.xcpProfitReal := by
  apply C5_xcp_profit_real_monotone
  · exact ⟨le_refl 0, fun _ => by norm_num⟩
  · intro op hop
    rcases List.mem_cons.mp hop with h | h
    · rw [h]
      exact (by norm_num : (0:ℚ) ≤ 5)
    · rcases List.mem_cons.mp h with h' | h'
      · rw [h']
        trivial
      · exact absurd h' (List.not_mem_nil op)

/-- The bracket scan finds the adjacent pair around the target: every entry
strictly before the pair (and the pair's left end) lies strictly below the
target, and the target is at most the right end's timestamp. -/
theorem findBracket_append (pre post : List Obs) (a b : Obs) (target : ℕ)
    (hpre : ∀ x ∈ pre ++ [a], x.ts < target) (hb : target ≤ b.ts) :
    findBracket target (pre ++ a :: b :: post) =
      some (interpPrice a b target) := by
  induction pre with
  | nil =>
    have ha : a.ts < target := hpre a (by simp)
    simp only [List.nil_append, findBracket]
    rw [if_pos ⟨le_of_lt ha, hb⟩]
  | cons x pre' ih =>
    have hx : x.ts < target := hpre x (by simp)
    have hpre' : ∀ y ∈ pre' ++ [a], y.ts < target := by
      intro y hy
      exact hpre y (by simpa using Or.inr (by simpa using hy))
    have hipre := ih hpre'
    cases hL : pre' ++ a :: b :: post with
    | nil => exact absurd hL (by simp)
    | cons y rest =>
      have hy : y.ts < target := by
        have hymem : y ∈ pre' ++ [a] := by
          cases pre' with
          | nil =>
            simp only [List.nil_append, List.cons.injEq] at hL
            simp [hL.1]
          | cons z pre'' =>
            simp only [List.cons_append, List.cons.injEq] at hL
            simp [hL.1]
        exact hpre' y hymem
      calc findBracket target (x :: pre' ++ a :: b :: post)
          = findBracket target (x :: y :: rest) := by rw [List.cons_append, hL]
        _ = findBracket target (y :: rest) := by
            simp only [findBracket]
            rw [if_neg]
            rintro ⟨-, hle⟩
            omega
        _ = some (interpPrice a b target) := by rw [← hL, hipre]

/-- C7: Observe with seconds_ago = 0 returns the latest derivable
instantaneous price; with seconds_ago > 0 and a non-empty ring whose head
is the oldest retained entry, the query fails with ObservationOutOfRange
exactly when target_ts = now - seconds_ago precedes the oldest entry; and
whenever the ring splits around two adjacent entries a, b with every entry
through a strictly older than target_ts and target_ts at most b's
timestamp, the query returns the cumulative price linearly interpolated
between a and b at target_ts. -/
theorem C7_observe_spec (ring rest pre post : List Obs) (oldest a b : Obs)
    (lastPrice : ℚ) (now secondsAgo : ℕ) (hring : ring = oldest :: rest) :
    (observe ring lastPrice now 0 = .ok lastPrice) ∧
    (secondsAgo ≠ 0 →
      ((observe ring lastPrice now secondsAgo =
          .error .observationOutOfRange) ↔ now - secondsAgo < oldest.ts)) ∧
    (secondsAgo ≠ 0 → ring = pre ++ a :: b :: post →
      (∀ x ∈ pre ++ [a], x.ts < now - secondsAgo) →
      now - secondsAgo ≤ b.ts →
      observe ring lastPrice now secondsAgo =
        .ok (interpPrice a b (now - secondsAgo))) := by
  refine ⟨by simp [observe], ?_, ?_⟩
  · intro hsa
    subst hring
    simp only [observe, if_neg hsa, List.head?_cons]
    constructor
    · intro herr
      by_contra hge
      rw [if_neg hge] at herr
      cases hfb : findBracket (now - secondsAgo) (oldest :: rest) with
      | some price => rw [hfb] at herr; exact Except.noConfusion herr
      | none => rw [hfb] at herr; exact Except.noConfusion herr
    · intro hlt
      rw [if_pos hlt]
  · intro hsa hsplit hpre hb
    have holdest : oldest.ts < now - secondsAgo := by
      have : oldest ∈ pre ++ [a] := by
        cases pre with
        | nil =>
          rw [hring] at hsplit
          simp only [List.nil_append, List.cons.injEq] at hsplit
          simp [hsplit.1]
        | cons z pre' =>
          rw [hring] at hsplit
          simp only [List.cons_append, List.cons.injEq] at hsplit
          simp [hsplit.1]
      exact hpre oldest this
    subst hring
    simp only [observe, if_neg hsa, List.head?_cons]
    rw [if_neg (by omega)]
    rw [hsplit, findBracket_append pre post a b (now - secondsAgo) hpre hb]

/-- Witness for C7 at a concrete ring: two entries at timestamps 10 and 20
with cumulative prices 1 and 3; Observe(0) returns the supplied latest
price, Observe at target 15 interpolates to 2, and Observe at a target
before timestamp 10 is out of range. -/
theorem C7_observe_spec_witness :
    (observe [⟨10, 1⟩, ⟨20, 2⟩] 7 100 0 = .ok 7) ∧
    ((observe [⟨10, 1⟩, ⟨20, 2⟩] 7 100 85 =
        .error .observationOutOfRange) ↔ 100 - 85 < 10) ∧
    observe [⟨10, 1⟩, ⟨20, 2⟩] 7 100 85 = .ok (interpPrice ⟨10, 1⟩ ⟨20, 2⟩ 15) := by
  have h := C7_observe_spec [⟨10, 1⟩, ⟨20, 2⟩] [⟨20, 2⟩] [] [] ⟨10, 1⟩ ⟨10, 1⟩
    ⟨20, 2⟩ 7 100 85 rfl
  refine ⟨h.1, h.2.1 (by norm_num), ?_⟩
  exact h.2.2 (by norm_num) rfl (by intro x hx; simp at hx; rw [hx]; norm_num)
    (by norm_num)

/-- C2 counterexample: in the reference scenario the 100-uosmo swap does
return 99.737929 uusd, but the invariant D computed from the balances after
that swap is about 200000.130412, not about 200000.260415 as claimed — it
misses the claimed value by about 0.13, far beyond any reading of the
six-decimal figure (tolerance 0.01 here).  The claimed figure is D after
the test's subsequent second swap of 100 uusd. -/
theorem C2_counterexample :
    refReturn1 = 99737929 ∧
    ¬ (200000260415 * 1000000 - 10000000000 ≤ refD1 ∧
        refD1 ≤ 200000260415 * 1000000 + 10000000000) := by
  decide

/-- C2 (amended): in the fresh uosmo/uusd pool with amp = 40,
gamma = 0.000145, price_scale = 1, providing 100000 of each asset yields
D = 200000 (to within 10^-6); swapping in 100 uosmo returns exactly
99.737929 uusd, and D after that swap is 200000.130412 (to within 10^-6),
strictly greater than the prior D; after the subsequent swap of 100 uusd
(returning exactly 99.741246 uosmo) D is 200000.260415 (to within 10^-6),
again strictly greater.  All values are at scale 10^12. -/
theorem C2_reference_scenario :
    (200000 * scaleE - 1000000 ≤ refD0 ∧ refD0 ≤ 200000 * scaleE + 1000000) ∧
    refReturn1 = 99737929 ∧
    (200000130412 * 1000000 - 1000000 ≤ refD1 ∧
      refD1 ≤ 200000130412 * 1000000 + 1000000) ∧
    refD0 < refD1 ∧
    refReturn2 = 99741246 ∧
    (200000260415 * 1000000 - 1000000 ≤ refD2 ∧
      refD2 ≤ 200000260415 * 1000000 + 1000000) ∧
    refD1 < refD2 := by
  decide

end AstroPcl
